import Mathlib

/-!
# Verification of the djshs-student-app booking / pass / penalty core

This file gives a shallow embedding of the data-centric core of the
djshs-student-app repository and proves (or refutes) the frozen claims
about it.

The embedding follows the source:

* `supabase/migrations/002_phase2_schema.sql` — the `study_applications`
  table with its unconditional `UNIQUE(user_id, date)` and
  `UNIQUE(seat_id, date)` constraints, the `outing_applications` table,
  and their row-level-security (RLS) policies;
* `supabase/migrations/005_outing_schema_update.sql` — the `share_type`
  column and the rewritten SELECT policy for `outing_applications`;
* the Phase-3 penalty schema (`penalty_records`,
  `penalty_record_targets`, `notifications`, the
  `update_user_total_penalty` trigger and the RLS policies on those
  tables);
* the study page (`handleApply`, `handleCancel`), the outing page
  (`fetchApplications`, `handleCancel`, `handleApprove`) and the
  penalty-issuing page (`handleSubmit`).

PostgreSQL row-level security is modelled precisely: an UPDATE statement
only touches rows whose old version passes some permissive policy's
USING clause, and it errors (42501) — changing nothing — when some
updated row fails every policy's WITH CHECK clause; a policy written
without WITH CHECK reuses its USING expression as the check, as the
PostgreSQL `CREATE POLICY` semantics prescribe.
-/

namespace StudentApp

/-- The `user_role` enum of the `profiles` table. -/
inductive Role where
  | student
  | teacher
  | admin
deriving DecidableEq, Repr

/-- The check `profiles.role IN ('teacher', 'admin')` used by every
teacher/admin RLS policy. -/
def Role.isStaff : Role → Bool
  | .teacher => true
  | .admin => true
  | .student => false

/-- The `application_status` enum. -/
inductive AppStatus where
  | pending
  | approved
  | rejected
  | cancelled
  | completed
deriving DecidableEq, Repr

/-- One row of `study_applications` (the fields the workflow reads). -/
structure StudyApp where
  user : Nat
  seat : Nat
  date : Nat
  status : AppStatus
deriving DecidableEq, Repr

/-- Errors surfaced by the seat-booking workflow. -/
inductive BookError where
  | duplicateBooking
deriving DecidableEq, Repr

/-- Error raised by PostgreSQL when an updated row fails every
applicable WITH CHECK expression (SQLSTATE 42501). -/
inductive RlsError where
  | policyViolation
deriving DecidableEq, Repr

/-- A permissive RLS policy: a USING clause and a WITH CHECK clause.
When the source policy has no WITH CHECK, the USING expression is
supplied for both fields, as PostgreSQL prescribes. -/
structure Policy (α : Type) where
  usingP : α → Bool
  checkP : α → Bool

/-- The per-row effect of an RLS-guarded UPDATE: a row is rewritten by
`f` exactly when it matches the client filter and passes some policy's
USING clause. -/
def rlsApply {α : Type} (pols : List (Policy α)) (filt : α → Bool) (f : α → α)
    (b : α) : α :=
  if filt b && pols.any (fun p => p.usingP b) then f b else b

/-- An RLS-guarded UPDATE statement: rows matching the client filter and
visible under some policy's USING clause are rewritten by `f`; if any
rewritten row fails every policy's WITH CHECK clause the whole statement
errors and the table is unchanged. -/
def rlsUpdate {α : Type} (pols : List (Policy α)) (filt : α → Bool) (f : α → α)
    (db : List α) : Except RlsError (List α) :=
  if (db.filter (fun b => filt b && pols.any (fun p => p.usingP b))).all
      (fun b => pols.any (fun p => p.checkP (f b))) then
    .ok (db.map (rlsApply pols filt f))
  else
    .error .policyViolation

/-- The `UNIQUE(user_id, date)` and `UNIQUE(seat_id, date)` constraints
of `study_applications`: an insert of `(u, s, d)` violates them exactly
when some existing row — of any status — shares the user and date or the
seat and date. -/
def studyUniqueViolation (db : List StudyApp) (u s d : Nat) : Bool :=
  db.any (fun b => (b.user == u && b.date == d) || (b.seat == s && b.date == d))

/-- `handleApply` of the study page: one INSERT with `status: 'pending'`;
the database's unique constraints reject it (error code 23505, surfaced
as the duplicate-booking alert) when a conflicting row exists. -/
def bookSeat (db : List StudyApp) (u s d : Nat) :
    Except BookError (List StudyApp) :=
  if studyUniqueViolation db u s d then
    .error .duplicateBooking
  else
    .ok ({ user := u, seat := s, date := d, status := .pending } :: db)

/-- The UPDATE policies on `study_applications` for a caller `c` with
role `r`: the owner policy (USING `auth.uid() = user_id`, no WITH CHECK)
and the teacher policy (FOR ALL with the staff-role test). -/
def studyUpdatePolicies (c : Nat) (r : Role) : List (Policy StudyApp) :=
  [⟨fun b => b.user == c, fun b => b.user == c⟩,
   ⟨fun _ => r.isStaff, fun _ => r.isStaff⟩]

/-- `handleCancel` of the study page: UPDATE `status = 'cancelled'`
filtered by seat and date only, executed under the RLS policies. -/
def cancelBooking (db : List StudyApp) (c : Nat) (r : Role) (s d : Nat) :
    Except RlsError (List StudyApp) :=
  rlsUpdate (studyUpdatePolicies c r) (fun b => b.seat == s && b.date == d)
    (fun b => { b with status := .cancelled }) db

/-- Bookings counted by the seat-uniqueness property: rows for seat `s`
and date `d` in a non-cancelled, non-rejected status. -/
def activeSeatCount (db : List StudyApp) (s d : Nat) : Nat :=
  (db.filter (fun b =>
    b.seat == s && b.date == d &&
    !(b.status == AppStatus.cancelled) && !(b.status == AppStatus.rejected))).length

/-- Bookings counted by the user-per-day property: rows for user `u` and
date `d` in a non-cancelled, non-rejected status. -/
def activeUserCount (db : List StudyApp) (u d : Nat) : Nat :=
  (db.filter (fun b =>
    b.user == u && b.date == d &&
    !(b.status == AppStatus.cancelled) && !(b.status == AppStatus.rejected))).length

/-- The seat-booking transitions the application performs: a successful
`handleApply` insert or a (teacher- or owner-initiated) `handleCancel`
update. -/
inductive StudyStep : List StudyApp → List StudyApp → Prop where
  | book (db : List StudyApp) (u s d : Nat) (db' : List StudyApp)
      (h : bookSeat db u s d = .ok db') : StudyStep db db'
  | cancel (db : List StudyApp) (c : Nat) (r : Role) (s d : Nat)
      (db' : List StudyApp)
      (h : cancelBooking db c r s d = .ok db') : StudyStep db db'

/-- Database states of `study_applications` reachable from the empty
table through the application's operations. -/
inductive StudyReachable : List StudyApp → Prop where
  | init : StudyReachable []
  | step {db db' : List StudyApp} :
      StudyReachable db → StudyStep db db' → StudyReachable db'

/-- The cancel UPDATE never violates a WITH CHECK clause: it leaves
`user_id` untouched, so every rewritten row passes the same policy that
made it visible. Hence `handleCancel` always succeeds and rewrites
exactly the visible matching rows. -/
theorem cancelBooking_ok (db : List StudyApp) (c : Nat) (r : Role) (s d : Nat) :
    cancelBooking db c r s d =
      Except.ok (db.map (rlsApply (studyUpdatePolicies c r)
        (fun b => b.seat == s && b.date == d)
        (fun b => { b with status := AppStatus.cancelled }))) := by
  unfold cancelBooking rlsUpdate
  split
  · rfl
  · rename_i hfail
    exfalso
    apply hfail
    rw [List.all_eq_true]
    intro b hb
    have h2 := (List.mem_filter.mp hb).2
    simp only [studyUpdatePolicies, List.any_cons, List.any_nil, Bool.or_false,
      Bool.and_eq_true, Bool.or_eq_true] at h2 ⊢
    exact h2.2

/-- The cancel UPDATE only rewrites the status column. -/
theorem rlsApply_cancel_fields (pols : List (Policy StudyApp))
    (filt : StudyApp → Bool) (b : StudyApp) :
    (rlsApply pols filt (fun b => { b with status := AppStatus.cancelled }) b).user = b.user ∧
    (rlsApply pols filt (fun b => { b with status := AppStatus.cancelled }) b).seat = b.seat ∧
    (rlsApply pols filt (fun b => { b with status := AppStatus.cancelled }) b).date = b.date := by
  unfold rlsApply
  split <;> exact ⟨rfl, rfl, rfl⟩

/-- Key separation between two `study_applications` rows: they collide
on neither unique constraint. -/
def studyKeyOk (a b : StudyApp) : Prop :=
  ¬(a.seat = b.seat ∧ a.date = b.date) ∧ ¬(a.user = b.user ∧ a.date = b.date)

/-- The table-level invariant backed by the two unique constraints. -/
def studyDistinct (db : List StudyApp) : Prop :=
  db.Pairwise studyKeyOk

theorem studyDistinct_book (db : List StudyApp) (u s d : Nat)
    (db' : List StudyApp) (hinv : studyDistinct db)
    (h : bookSeat db u s d = .ok db') : studyDistinct db' := by
  unfold bookSeat at h
  split at h
  · exact absurd h (by simp)
  · rename_i hviol
    injection h with h
    subst h
    refine List.pairwise_cons.mpr ⟨?_, hinv⟩
    intro b hb
    have hb' : ¬((b.user == u && b.date == d) || (b.seat == s && b.date == d)) = true := by
      intro hcontra
      exact hviol (List.any_eq_true.mpr ⟨b, hb, hcontra⟩)
    simp only [Bool.or_eq_true, Bool.and_eq_true, beq_iff_eq, not_or, not_and] at hb'
    constructor
    · rintro ⟨hs, hd⟩
      exact hb'.2 hs.symm hd.symm
    · rintro ⟨hu, hd⟩
      exact hb'.1 hu.symm hd.symm

theorem studyDistinct_cancel (db : List StudyApp) (c : Nat) (r : Role)
    (s d : Nat) (db' : List StudyApp) (hinv : studyDistinct db)
    (h : cancelBooking db c r s d = .ok db') : studyDistinct db' := by
  rw [cancelBooking_ok] at h
  injection h with h
  subst h
  refine List.Pairwise.map _ ?_ hinv
  intro a b hab
  obtain ⟨hu₁, hs₁, hd₁⟩ := rlsApply_cancel_fields (studyUpdatePolicies c r)
    (fun b => b.seat == s && b.date == d) a
  obtain ⟨hu₂, hs₂, hd₂⟩ := rlsApply_cancel_fields (studyUpdatePolicies c r)
    (fun b => b.seat == s && b.date == d) b
  constructor
  · rw [hs₁, hs₂, hd₁, hd₂]
    exact hab.1
  · rw [hu₁, hu₂, hd₁, hd₂]
    exact hab.2

theorem studyDistinct_reachable (db : List StudyApp) (h : StudyReachable db) :
    studyDistinct db := by
  induction h with
  | init => exact List.Pairwise.nil
  | step _ hs ih =>
    cases hs with
    | book a u s d hb => exact studyDistinct_book _ _ _ _ _ ih hb
    | cancel a c r s d hc => exact studyDistinct_cancel _ _ _ _ _ _ ih hc

/-- A pairwise-separated list keeps at most one element satisfying a
predicate that forces a collision. -/
theorem length_filter_le_one {α : Type} (R : α → α → Prop) (p : α → Bool)
    (l : List α) (hpair : l.Pairwise R)
    (hinc : ∀ a b, p a = true → p b = true → R a b → False) :
    (l.filter p).length ≤ 1 := by
  induction l with
  | nil => simp
  | cons a l ih =>
    obtain ⟨hhead, htail⟩ := List.pairwise_cons.mp hpair
    by_cases hpa : p a = true
    · rw [List.filter_cons_of_pos hpa]
      have hnil : l.filter p = [] := by
        rw [List.filter_eq_nil_iff]
        intro b hb hpb
        exact hinc a b hpa hpb (hhead b hb)
      rw [hnil]
      simp
    · rw [List.filter_cons_of_neg (by simpa using hpa)]
      exact ih htail

/-- C2: in every reachable `study_applications` state there is at most
one row per (seat, date) and per (user, date) in a non-cancelled,
non-rejected status, and once a booking for a (seat, date) has
succeeded, any further booking attempt for the same seat and date fails
with the duplicate-booking error. -/
theorem study_booking_uniqueness (db : List StudyApp) (h : StudyReachable db) :
    (∀ s d, activeSeatCount db s d ≤ 1) ∧
    (∀ u d, activeUserCount db u d ≤ 1) ∧
    (∀ u₁ u₂ s d db', bookSeat db u₁ s d = .ok db' →
      bookSeat db' u₂ s d = .error .duplicateBooking) := by
  have hpair := studyDistinct_reachable db h
  refine ⟨?_, ?_, ?_⟩
  · intro s d
    apply length_filter_le_one studyKeyOk _ db hpair
    intro a b hpa hpb hR
    simp only [Bool.and_eq_true, beq_iff_eq] at hpa hpb
    obtain ⟨⟨⟨ha1, ha2⟩, -⟩, -⟩ := hpa
    obtain ⟨⟨⟨hb1, hb2⟩, -⟩, -⟩ := hpb
    exact hR.1 ⟨by rw [ha1, hb1], by rw [ha2, hb2]⟩
  · intro u d
    apply length_filter_le_one studyKeyOk _ db hpair
    intro a b hpa hpb hR
    simp only [Bool.and_eq_true, beq_iff_eq] at hpa hpb
    obtain ⟨⟨⟨ha1, ha2⟩, -⟩, -⟩ := hpa
    obtain ⟨⟨⟨hb1, hb2⟩, -⟩, -⟩ := hpb
    exact hR.2 ⟨by rw [ha1, hb1], by rw [ha2, hb2]⟩
  · intro u₁ u₂ s d db' hok
    unfold bookSeat at hok
    split at hok
    · exact absurd hok (by simp)
    · injection hok with hok
      subst hok
      simp [bookSeat, studyUniqueViolation]

theorem study_booking_uniqueness_witness :
    activeSeatCount [{ user := 1, seat := 2, date := 3, status := .pending }] 2 3 ≤ 1 ∧
    activeUserCount [{ user := 1, seat := 2, date := 3, status := .pending }] 1 3 ≤ 1 ∧
    bookSeat [{ user := 1, seat := 2, date := 3, status := .pending }] 4 2 3 =
      .error .duplicateBooking := by
  have hreach : StudyReachable [{ user := 1, seat := 2, date := 3, status := .pending }] :=
    StudyReachable.step StudyReachable.init
      (StudyStep.book [] 1 2 3 [{ user := 1, seat := 2, date := 3, status := .pending }] rfl)
  have h := study_booking_uniqueness _ hreach
  have h0 := study_booking_uniqueness [] StudyReachable.init
  exact ⟨h.1 2 3, h.2.1 1 3, h0.2.2 1 4 2 3 _ rfl⟩

/-- C4: the unique constraints of `study_applications` are
unconditional, so a row left behind in `cancelled` status still blocks
the insert: here user 1, holding only a cancelled booking for date 3,
cannot book the free seat 9 — `handleApply` reports the duplicate error
even though no non-cancelled, non-rejected booking exists for that user
or seat. -/
theorem cancelled_booking_still_blocks_insert :
    bookSeat [] 1 2 3 = .ok [{ user := 1, seat := 2, date := 3, status := .pending }] ∧
    cancelBooking [{ user := 1, seat := 2, date := 3, status := .pending }] 1 .student 2 3 =
      .ok [{ user := 1, seat := 2, date := 3, status := .cancelled }] ∧
    activeUserCount [{ user := 1, seat := 2, date := 3, status := .cancelled }] 1 3 = 0 ∧
    activeSeatCount [{ user := 1, seat := 2, date := 3, status := .cancelled }] 9 3 = 0 ∧
    bookSeat [{ user := 1, seat := 2, date := 3, status := .cancelled }] 1 9 3 =
      .error .duplicateBooking :=
  ⟨rfl, rfl, rfl, rfl, rfl⟩

/-- C5: after student 1 cancels their booking of seat 2 for date 3, the
cancelled row keeps occupying `UNIQUE(seat_id, date)`, so student 9's
subsequent booking of the same seat and date fails with the
duplicate-booking error instead of succeeding. -/
theorem seat_not_rebookable_after_cancel :
    bookSeat [] 1 2 3 = .ok [{ user := 1, seat := 2, date := 3, status := .pending }] ∧
    cancelBooking [{ user := 1, seat := 2, date := 3, status := .pending }] 1 .student 2 3 =
      .ok [{ user := 1, seat := 2, date := 3, status := .cancelled }] ∧
    bookSeat [{ user := 1, seat := 2, date := 3, status := .cancelled }] 9 2 3 =
      .error .duplicateBooking :=
  ⟨rfl, rfl, rfl⟩

theorem rlsApply_pos {α : Type} (pols : List (Policy α)) (filt : α → Bool)
    (f : α → α) (b : α)
    (h : (filt b && pols.any fun p => p.usingP b) = true) :
    rlsApply pols filt f b = f b := by
  unfold rlsApply
  exact if_pos h

theorem rlsApply_neg {α : Type} (pols : List (Policy α)) (filt : α → Bool)
    (f : α → α) (b : α)
    (h : (filt b && pols.any fun p => p.usingP b) = false) :
    rlsApply pols filt f b = b := by
  unfold rlsApply
  exact if_neg (by simp [h])

theorem cancelApply_idem (c : Nat) (r : Role) (s d : Nat) (b : StudyApp) :
    rlsApply (studyUpdatePolicies c r) (fun x => x.seat == s && x.date == d)
      (fun x => { x with status := AppStatus.cancelled })
      (rlsApply (studyUpdatePolicies c r) (fun x => x.seat == s && x.date == d)
        (fun x => { x with status := AppStatus.cancelled }) b) =
    rlsApply (studyUpdatePolicies c r) (fun x => x.seat == s && x.date == d)
      (fun x => { x with status := AppStatus.cancelled }) b := by
  by_cases hc : (((fun x : StudyApp => x.seat == s && x.date == d) b) &&
      ((studyUpdatePolicies c r).any fun p => p.usingP b)) = true
  · have h1 := rlsApply_pos (studyUpdatePolicies c r)
      (fun x => x.seat == s && x.date == d)
      (fun x => { x with status := AppStatus.cancelled }) b hc
    rw [h1]
    exact rlsApply_pos _ _ _ _ hc
  · rw [Bool.not_eq_true] at hc
    have h1 := rlsApply_neg (studyUpdatePolicies c r)
      (fun x => x.seat == s && x.date == d)
      (fun x => { x with status := AppStatus.cancelled }) b hc
    rw [h1]
    exact h1

/-- C7 (amended): `handleCancel` never reports a not-owner failure: the
RLS-guarded update always reports success; in the result every booking
of the caller for the given seat and date is cancelled whatever its
prior status; repeating the cancel is a no-op success; and a non-owner,
non-staff caller's attempt leaves the table unchanged while still
reporting success. -/
theorem cancel_booking_behaviour (db : List StudyApp) (c : Nat) (r : Role) (s d : Nat) :
    (∃ db', cancelBooking db c r s d = .ok db') ∧
    (∀ db', cancelBooking db c r s d = .ok db' →
      ∀ b ∈ db', b.user = c → b.seat = s → b.date = d →
        b.status = AppStatus.cancelled) ∧
    (∀ db', cancelBooking db c r s d = .ok db' →
      cancelBooking db' c r s d = .ok db') ∧
    (r.isStaff = false → (∀ b ∈ db, ¬(b.user = c)) →
      cancelBooking db c r s d = .ok db) := by
  refine ⟨⟨_, cancelBooking_ok db c r s d⟩, ?_, ?_, ?_⟩
  · intro db' hok b hb hu hs hd
    rw [cancelBooking_ok] at hok
    injection hok with hok
    subst hok
    obtain ⟨b0, hb0, rfl⟩ := List.mem_map.mp hb
    obtain ⟨hu0, hs0, hd0⟩ := rlsApply_cancel_fields _ _ b0
    rw [hu0] at hu
    rw [hs0] at hs
    rw [hd0] at hd
    have hcond : (((fun x : StudyApp => x.seat == s && x.date == d) b0) &&
        ((studyUpdatePolicies c r).any fun p => p.usingP b0)) = true := by
      simp [studyUpdatePolicies, hs, hd, hu]
    rw [rlsApply_pos _ _ _ _ hcond]
  · intro db' hok
    rw [cancelBooking_ok] at hok
    injection hok with hok
    subst hok
    rw [cancelBooking_ok, List.map_map]
    congr 1
    apply List.map_congr_left
    intro b _
    exact cancelApply_idem c r s d b
  · intro hstaff hown
    rw [cancelBooking_ok]
    have hfix : db.map (rlsApply (studyUpdatePolicies c r)
        (fun b => b.seat == s && b.date == d)
        (fun b => { b with status := AppStatus.cancelled })) = db.map id := by
      apply List.map_congr_left
      intro b hb
      have hcond : (((fun x : StudyApp => x.seat == s && x.date == d) b) &&
          ((studyUpdatePolicies c r).any fun p => p.usingP b)) = false := by
        simp [studyUpdatePolicies, hstaff, hown b hb]
      exact rlsApply_neg _ _ _ _ hcond
    rw [hfix, List.map_id]

theorem cancel_booking_behaviour_witness :
    ({ user := 1, seat := 2, date := 3, status := AppStatus.cancelled } : StudyApp).status
      = AppStatus.cancelled ∧
    cancelBooking [{ user := 1, seat := 2, date := 3, status := AppStatus.cancelled }] 1
      Role.student 2 3 =
      .ok [{ user := 1, seat := 2, date := 3, status := AppStatus.cancelled }] ∧
    cancelBooking [{ user := 1, seat := 2, date := 3, status := AppStatus.pending }] 9
      Role.student 2 3 =
      .ok [{ user := 1, seat := 2, date := 3, status := AppStatus.pending }] := by
  have h1 := cancel_booking_behaviour
    [{ user := 1, seat := 2, date := 3, status := AppStatus.pending }] 1 Role.student 2 3
  have h9 := cancel_booking_behaviour
    [{ user := 1, seat := 2, date := 3, status := AppStatus.pending }] 9 Role.student 2 3
  refine ⟨?_, ?_, ?_⟩
  · exact h1.2.1 [{ user := 1, seat := 2, date := 3, status := AppStatus.cancelled }]
      rfl _ (by simp) rfl rfl rfl
  · exact h1.2.2.1 [{ user := 1, seat := 2, date := 3, status := AppStatus.cancelled }] rfl
  · exact h9.2.2.2 rfl (by decide)

/-- C7 counterexample: a caller who is not the booking's owner does not
receive a not-owner failure from `handleCancel`: a staff caller's update
succeeds and cancels the other student's booking, and a non-owner
student's update succeeds while touching nothing. -/
theorem cancel_by_non_owner_not_an_error :
    cancelBooking [{ user := 1, seat := 2, date := 3, status := AppStatus.pending }] 5
      Role.teacher 2 3 =
      .ok [{ user := 1, seat := 2, date := 3, status := AppStatus.cancelled }] ∧
    cancelBooking [{ user := 1, seat := 2, date := 3, status := AppStatus.pending }] 9
      Role.student 2 3 =
      .ok [{ user := 1, seat := 2, date := 3, status := AppStatus.pending }] :=
  ⟨rfl, rfl⟩

/-- The `share_type` enum added by migration 005. -/
inductive ShareType where
  | «private»
  | link
  | «public»
deriving DecidableEq, Repr

/-- One row of `outing_applications` (the fields the workflow reads). -/
structure OutingApp where
  id : Nat
  user : Nat
  share : ShareType
  status : AppStatus
  approvedBy : Option Nat
deriving DecidableEq, Repr

/-- The SELECT policy on `outing_applications` after migration 005:
owner, or shared (`public` or `link`), or staff. -/
def outingSelectPolicy (c : Nat) (r : Role) (a : OutingApp) : Bool :=
  a.user == c || a.share == ShareType.«public» || a.share == ShareType.link || r.isStaff

/-- The client-side filters of `fetchApplications` on the public tab:
`share_type IN ('public', 'link')` and `status IN ('pending', 'approved')`. -/
def publicTabFilter (a : OutingApp) : Bool :=
  (a.share == ShareType.«public» || a.share == ShareType.link) &&
    (a.status == AppStatus.pending || a.status == AppStatus.approved)

/-- `fetchApplications` on the public tab: the database evaluates the
SELECT policy on every row and the query adds the tab's filters. -/
def listPublicPassRequests (c : Nat) (r : Role) (db : List OutingApp) :
    List OutingApp :=
  (db.filter (outingSelectPolicy c r)).filter publicTabFilter

/-- The UPDATE policies on `outing_applications` for caller `c` with
role `r`: the owner policy USING `auth.uid() = user_id AND
status = 'pending'` (no WITH CHECK, so the same expression checks the
updated row) and the teacher FOR ALL policy. -/
def outingUpdatePolicies (c : Nat) (r : Role) : List (Policy OutingApp) :=
  [⟨fun a => a.user == c && a.status == AppStatus.pending,
    fun a => a.user == c && a.status == AppStatus.pending⟩,
   ⟨fun _ => r.isStaff, fun _ => r.isStaff⟩]

/-- `handleCancel` of the outing page: UPDATE `status = 'cancelled'`
filtered by id only, executed under the RLS policies. -/
def cancelOuting (db : List OutingApp) (c : Nat) (r : Role) (appId : Nat) :
    Except RlsError (List OutingApp) :=
  rlsUpdate (outingUpdatePolicies c r) (fun a => a.id == appId)
    (fun a => { a with status := AppStatus.cancelled }) db

/-- `handleApprove` of the outing page: UPDATE setting
`status = approve ? 'approved' : 'rejected'` and `approved_by`, filtered
by id only (no status guard), executed under the RLS policies. -/
def decideOuting (db : List OutingApp) (c : Nat) (r : Role) (appId : Nat)
    (approve : Bool) : Except RlsError (List OutingApp) :=
  rlsUpdate (outingUpdatePolicies c r) (fun a => a.id == appId)
    (fun a => { a with
      status := if approve then AppStatus.approved else AppStatus.rejected,
      approvedBy := some c }) db

/-- C6: the pass state machine is not enforced: `handleApprove` carries
no status guard and the teacher policy admits any update, so a
teacher's approval of an already-cancelled request succeeds and
overwrites its status — no not-pending failure occurs; meanwhile the
owner policy's USING clause doubles as the WITH CHECK clause, so the
owner's own pending-to-cancelled transition, which the claim requires
to succeed, is rejected by the storage layer. -/
theorem pass_state_machine_not_enforced :
    decideOuting
      [{ id := 0, user := 1, share := .«private», status := .cancelled,
         approvedBy := none }] 2 .teacher 0 true =
      .ok [{ id := 0, user := 1, share := .«private», status := .approved,
             approvedBy := some 2 }] ∧
    cancelOuting
      [{ id := 0, user := 1, share := .«private», status := .pending,
         approvedBy := none }] 1 .student 0 =
      .error .policyViolation :=
  ⟨rfl, rfl⟩

/-- C8: the public scope returns exactly the requests shared as
`public` or `link` whose status is `pending` or `approved`, whatever
the viewer's identity and role; `private` requests and requests in
status `rejected`, `cancelled` or `completed` never appear. -/
theorem public_scope_viewer_independent (c : Nat) (r : Role) (db : List OutingApp) :
    listPublicPassRequests c r db = db.filter publicTabFilter ∧
    (∀ a ∈ listPublicPassRequests c r db,
      a.share ≠ ShareType.«private» ∧ a.status ≠ AppStatus.rejected ∧
        a.status ≠ AppStatus.cancelled ∧ a.status ≠ AppStatus.completed) := by
  have hmain : listPublicPassRequests c r db = db.filter publicTabFilter := by
    unfold listPublicPassRequests
    rw [List.filter_filter]
    apply List.filter_congr
    intro a _
    by_cases hp : publicTabFilter a = true
    · have hsel : outingSelectPolicy c r a = true := by
        have hp' := hp
        simp only [publicTabFilter, Bool.and_eq_true, Bool.or_eq_true, beq_iff_eq] at hp'
        rcases hp'.1 with h | h <;> simp [outingSelectPolicy, h]
      rw [hp, hsel]
      rfl
    · rw [Bool.not_eq_true] at hp
      rw [hp]
      simp
  refine ⟨hmain, ?_⟩
  intro a ha
  rw [hmain] at ha
  have hp := (List.mem_filter.mp ha).2
  simp only [publicTabFilter, Bool.and_eq_true, Bool.or_eq_true, beq_iff_eq] at hp
  refine ⟨?_, ?_, ?_, ?_⟩
  · rcases hp.1 with h | h <;> rw [h] <;> decide
  · rcases hp.2 with h | h <;> rw [h] <;> decide
  · rcases hp.2 with h | h <;> rw [h] <;> decide
  · rcases hp.2 with h | h <;> rw [h] <;> decide

theorem public_scope_viewer_independent_witness :
    listPublicPassRequests 1 Role.student
        [{ id := 0, user := 5, share := .«public», status := .pending,
           approvedBy := none }] =
      List.filter publicTabFilter
        [{ id := 0, user := 5, share := .«public», status := .pending,
           approvedBy := none }] ∧
    ({ id := 0, user := 5, share := .«public», status := .pending,
       approvedBy := none } : OutingApp).share ≠ ShareType.«private» := by
  have h := public_scope_viewer_independent 1 Role.student
    [{ id := 0, user := 5, share := .«public», status := .pending,
       approvedBy := none }]
  exact ⟨h.1, (h.2 _ (by decide)).1⟩

/-- One row of `penalty_records`: id, issuing teacher and signed point
value. -/
structure PenaltyRecord where
  id : Nat
  issuedBy : Nat
  points : Int
deriving DecidableEq, Repr

/-- The ledger tables: `penalty_records`, the `penalty_record_targets`
rows as (record_id, user_id) pairs, and the `profiles.total_penalty`
column as a map from user id to stored total. -/
structure LedgerState where
  records : List PenaltyRecord
  targets : List (Nat × Nat)
  totalPenalty : Nat → Int

/-- `pr.points` of the record joined through `prt.record_id`; a missing
record contributes nothing, as the inner JOIN drops such rows. -/
def lookupPoints (rs : List PenaltyRecord) (rid : Nat) : Int :=
  match rs.find? (fun r0 => r0.id == rid) with
  | some r0 => r0.points
  | none => 0

/-- The SELECT inside `update_user_total_penalty`:
`COALESCE(SUM(pr.points), 0)` over the target rows of user `u` joined
with their records. -/
def targetSum (st : LedgerState) (u : Nat) : Int :=
  ((st.targets.filter (fun t => t.2 == u)).map
    (fun t => lookupPoints st.records t.1)).sum

/-- The body of `update_user_total_penalty`: recompute and store the
total of the affected user. -/
def recomputeTotal (st : LedgerState) (u : Nat) : LedgerState :=
  { st with totalPenalty := fun v => if v = u then targetSum st u else st.totalPenalty v }

/-- INSERT into `penalty_records`; no trigger touches totals. -/
def insertRecord (st : LedgerState) (r0 : PenaltyRecord) : LedgerState :=
  { st with records := r0 :: st.records }

/-- INSERT of one `penalty_record_targets` row followed by the AFTER
INSERT trigger recomputing that user's total. -/
def insertTarget (st : LedgerState) (t : Nat × Nat) : LedgerState :=
  recomputeTotal { st with targets := t :: st.targets } t.2

/-- DELETE of one `penalty_record_targets` row followed by the AFTER
DELETE trigger recomputing that user's total. -/
def deleteTarget (st : LedgerState) (t : Nat × Nat) : LedgerState :=
  recomputeTotal { st with targets := st.targets.erase t } t.2

/-- The ledger transitions, guarded by the schema's constraints: a
fresh primary key for a record insert, an existing record and the
`UNIQUE(record_id, user_id)` constraint for a target insert, and an
existing row for a target delete. -/
inductive LedgerStep : LedgerState → LedgerState → Prop where
  | insertRecord (st : LedgerState) (r0 : PenaltyRecord)
      (hfresh : ∀ r1 ∈ st.records, r1.id ≠ r0.id) :
      LedgerStep st (insertRecord st r0)
  | insertTarget (st : LedgerState) (t : Nat × Nat)
      (hfk : ∃ r1 ∈ st.records, r1.id = t.1)
      (huniq : t ∉ st.targets) :
      LedgerStep st (insertTarget st t)
  | deleteTarget (st : LedgerState) (t : Nat × Nat) (hmem : t ∈ st.targets) :
      LedgerStep st (deleteTarget st t)

/-- The empty database with every `total_penalty` at its default 0. -/
def initLedger : LedgerState :=
  { records := [], targets := [], totalPenalty := fun _ => 0 }

/-- Ledger states reachable from the empty database. -/
inductive LedgerReachable : LedgerState → Prop where
  | init : LedgerReachable initLedger
  | step {st st' : LedgerState} :
      LedgerReachable st → LedgerStep st st' → LedgerReachable st'

/-- The consistency invariant together with the foreign-key fact needed
to push it through record inserts. -/
def LedgerInv (st : LedgerState) : Prop :=
  (∀ u, st.totalPenalty u = targetSum st u) ∧
  (∀ t ∈ st.targets, ∃ r1 ∈ st.records, r1.id = t.1)

theorem lookupPoints_cons_ne (r0 : PenaltyRecord) (rs : List PenaltyRecord)
    (rid : Nat) (h : r0.id ≠ rid) :
    lookupPoints (r0 :: rs) rid = lookupPoints rs rid := by
  unfold lookupPoints
  rw [List.find?_cons_of_neg]
  simp [h]

theorem targetSum_insertRecord (st : LedgerState) (r0 : PenaltyRecord)
    (hne : ∀ t ∈ st.targets, t.1 ≠ r0.id) (u : Nat) :
    targetSum (insertRecord st r0) u = targetSum st u := by
  unfold targetSum insertRecord
  apply congrArg List.sum
  apply List.map_congr_left
  intro t ht
  have ht' : t ∈ st.targets := (List.mem_filter.mp ht).1
  exact lookupPoints_cons_ne r0 st.records t.1 (fun h => hne t ht' h.symm)

theorem targetSum_cons_ne (st : LedgerState) (t : Nat × Nat) (u : Nat)
    (h : ¬(t.2 = u)) :
    targetSum { st with targets := t :: st.targets } u = targetSum st u := by
  unfold targetSum
  rw [List.filter_cons_of_neg (by simp [h])]

theorem filter_erase_of_neg {α : Type} [BEq α] [LawfulBEq α] (p : α → Bool) (t : α)
    (l : List α) (h : p t = false) : (l.erase t).filter p = l.filter p := by
  induction l with
  | nil => rfl
  | cons a l ih =>
    rw [List.erase_cons]
    by_cases hat : (a == t) = true
    · rw [if_pos hat]
      have hat' : a = t := eq_of_beq hat
      subst hat'
      rw [List.filter_cons_of_neg (by simp [h])]
    · rw [if_neg hat]
      by_cases hpa : p a = true
      · rw [List.filter_cons_of_pos hpa, List.filter_cons_of_pos hpa, ih]
      · rw [List.filter_cons_of_neg (by simpa using hpa),
          List.filter_cons_of_neg (by simpa using hpa)]
        exact ih

theorem targetSum_erase_ne (st : LedgerState) (t : Nat × Nat) (u : Nat)
    (h : ¬(t.2 = u)) :
    targetSum { st with targets := st.targets.erase t } u = targetSum st u := by
  unfold targetSum
  show (((st.targets.erase t).filter (fun x => x.2 == u)).map
    (fun x => lookupPoints st.records x.1)).sum = _
  rw [filter_erase_of_neg _ _ _ (by simp [h])]

theorem ledgerInv_step {st st' : LedgerState} (h : LedgerStep st st')
    (hinv : LedgerInv st) : LedgerInv st' := by
  cases h with
  | insertRecord r0 hfresh =>
    constructor
    · intro u
      have hne : ∀ t ∈ st.targets, t.1 ≠ r0.id := by
        intro t ht hcontra
        obtain ⟨r1, hr1, hid⟩ := hinv.2 t ht
        exact hfresh r1 hr1 (hid.trans hcontra)
      rw [targetSum_insertRecord st r0 hne u]
      exact hinv.1 u
    · intro t ht
      obtain ⟨r1, hr1, hid⟩ := hinv.2 t ht
      exact ⟨r1, List.mem_cons_of_mem _ hr1, hid⟩
  | insertTarget t hfk huniq =>
    constructor
    · intro u
      by_cases hu : u = t.2
      · subst hu
        show (if t.2 = t.2 then targetSum { st with targets := t :: st.targets } t.2
            else st.totalPenalty t.2) = _
        rw [if_pos rfl]
        rfl
      · show (if u = t.2 then targetSum { st with targets := t :: st.targets } t.2
            else st.totalPenalty u) = _
        rw [if_neg hu]
        have hgoal : targetSum (insertTarget st t) u = targetSum st u :=
          targetSum_cons_ne st t u (fun hh => hu hh.symm)
        rw [hgoal]
        exact hinv.1 u
    · intro t' ht'
      rcases List.mem_cons.mp ht' with rfl | hmem
      · exact hfk
      · exact hinv.2 t' hmem
  | deleteTarget t hmem =>
    constructor
    · intro u
      by_cases hu : u = t.2
      · subst hu
        show (if t.2 = t.2 then targetSum { st with targets := st.targets.erase t } t.2
            else st.totalPenalty t.2) = _
        rw [if_pos rfl]
        rfl
      · show (if u = t.2 then targetSum { st with targets := st.targets.erase t } t.2
            else st.totalPenalty u) = _
        rw [if_neg hu]
        have hgoal : targetSum (deleteTarget st t) u = targetSum st u :=
          targetSum_erase_ne st t u (fun hh => hu hh.symm)
        rw [hgoal]
        exact hinv.1 u
    · intro t' ht'
      exact hinv.2 t' (List.mem_of_mem_erase ht')

/-- C1: in every ledger state reachable through the trigger-guarded
operations — record inserts, target inserts and target deletes, the
latter two immediately followed by the `update_user_total_penalty`
recomputation — every user's stored `total_penalty` equals the sum of
the points of the records targeting that user. -/
theorem ledger_total_consistency (st : LedgerState) (h : LedgerReachable st) :
    ∀ u, st.totalPenalty u = targetSum st u := by
  have hinv : LedgerInv st := by
    induction h with
    | init => exact ⟨fun u => rfl, fun t ht => absurd ht (List.not_mem_nil t)⟩
    | step _ hs ih => exact ledgerInv_step hs ih
  exact hinv.1

/-- Two back-to-back issuances targeting user 7: a +5 demerit followed
by a −1 merit. -/
def issuedTwice : LedgerState :=
  insertTarget
    (insertRecord (insertTarget (insertRecord initLedger
      { id := 0, issuedBy := 3, points := 5 }) (0, 7))
      { id := 1, issuedBy := 3, points := -1 }) (1, 7)

theorem ledger_total_consistency_witness :
    issuedTwice.totalPenalty 7 = targetSum issuedTwice 7 ∧
    issuedTwice.totalPenalty 7 = 4 := by
  have hreach : LedgerReachable issuedTwice :=
    LedgerReachable.step
      (LedgerReachable.step
        (LedgerReachable.step
          (LedgerReachable.step LedgerReachable.init
            (LedgerStep.insertRecord _ _ (by decide)))
          (LedgerStep.insertTarget _ _ (by decide) (by decide)))
        (LedgerStep.insertRecord _ _ (by decide)))
      (LedgerStep.insertTarget _ _ (by decide) (by decide))
  exact ⟨ledger_total_consistency issuedTwice hreach 7, by decide⟩

/-- The UPDATE policy on `penalty_records`: teachers and admins may
update any record. -/
def penaltyRecordsUpdateAllowed (r : Role) : Bool :=
  r.isStaff

/-- An UPDATE of `penalty_records.points`: no trigger watches this
table, so no total is recomputed. -/
def updateRecordPoints (st : LedgerState) (rid : Nat) (p : Int) : LedgerState :=
  { st with records := (st.records.map
      (fun r0 => if r0.id == rid then { r0 with points := p } else r0)) }

/-- C10: an update of a record's points leaves every stored total
untouched — the recomputation trigger watches only
`penalty_record_targets` — while the RLS policy lets a teacher perform
the update; on a concrete ledger satisfying the consistency invariant,
changing the record's points from 5 to 7 leaves the stored total at 5
against a ledger sum of 7. -/
theorem points_update_skips_totals :
    (∀ (st : LedgerState) (rid : Nat) (p : Int),
      (updateRecordPoints st rid p).totalPenalty = st.totalPenalty) ∧
    penaltyRecordsUpdateAllowed .teacher = true ∧
    (insertTarget (insertRecord initLedger
        { id := 0, issuedBy := 3, points := 5 }) (0, 7)).totalPenalty 7 =
      targetSum (insertTarget (insertRecord initLedger
        { id := 0, issuedBy := 3, points := 5 }) (0, 7)) 7 ∧
    ¬((updateRecordPoints (insertTarget (insertRecord initLedger
        { id := 0, issuedBy := 3, points := 5 }) (0, 7)) 0 7).totalPenalty 7 =
      targetSum (updateRecordPoints (insertTarget (insertRecord initLedger
        { id := 0, issuedBy := 3, points := 5 }) (0, 7)) 0 7) 7) :=
  ⟨fun _ _ _ => rfl, rfl, by decide, by decide⟩

/-- One row of `notifications` as created by the penalty flow. -/
structure Notification where
  user : Nat
  relatedId : Nat
deriving DecidableEq, Repr

/-- The application state the penalty flow touches. -/
structure AppState where
  ledger : LedgerState
  notifications : List Notification

/-- Failure injection for the three sequential storage calls of
`handleSubmit`. -/
inductive FailPoint where
  | noFail
  | atRecord
  | atTargets
  | atNotifications
deriving DecidableEq, Repr

/-- The outcome the user observes: the success alert, the error alert,
or the silent early return of the empty-target guard. -/
inductive IssueOutcome where
  | success
  | errorAlert
  | emptyTargets
deriving DecidableEq, Repr

/-- `handleSubmit` of the penalty-give page. The guard returns before
any write when no target is selected. Then three separate storage calls
run in sequence, with no transaction around them: (1) INSERT one
`penalty_records` row; (2) INSERT all `penalty_record_targets` rows,
each firing the total trigger; (3) INSERT all `notifications` rows —
whose error the source never checks before showing the success alert.
`fp` injects a failure into one of the calls; a failing call performs
nothing itself, but nothing already performed is rolled back. -/
def issuePenalty (teacher recId : Nat) (points : Int) (targets : List Nat)
    (fp : FailPoint) (st : AppState) : AppState × IssueOutcome :=
  if targets.isEmpty then
    (st, .emptyTargets)
  else if fp = .atRecord then
    (st, .errorAlert)
  else
    let st1 : AppState :=
      { st with ledger := (insertRecord st.ledger
          { id := recId, issuedBy := teacher, points := points }) }
    if fp = .atTargets then
      (st1, .errorAlert)
    else
      let st2 : AppState :=
        { st1 with ledger :=
            (targets.foldl (fun l u => insertTarget l (recId, u)) st1.ledger) }
      if fp = .atNotifications then
        (st2, .success)
      else
        ({ st2 with notifications := (st2.notifications ++
            targets.map (fun u => { user := u, relatedId := recId })) },
         .success)

/-- C3: issuance is not all-or-nothing: with the failure injected at
the targets insert, the already-inserted `penalty_records` row survives
with zero targets and zero notifications while the error alert shows;
with the failure at the notifications insert — whose error the code
never checks — the flow reports success although the record and its two
targets exist with zero notifications. -/
theorem issuance_not_atomic :
    (issuePenalty 1 0 5 [7, 8] .atTargets
      { ledger := initLedger, notifications := [] }).1.ledger.records.length = 1 ∧
    (issuePenalty 1 0 5 [7, 8] .atTargets
      { ledger := initLedger, notifications := [] }).1.ledger.targets.length = 0 ∧
    (issuePenalty 1 0 5 [7, 8] .atTargets
      { ledger := initLedger, notifications := [] }).1.notifications.length = 0 ∧
    (issuePenalty 1 0 5 [7, 8] .atTargets
      { ledger := initLedger, notifications := [] }).2 = .errorAlert ∧
    (issuePenalty 1 0 5 [7, 8] .atNotifications
      { ledger := initLedger, notifications := [] }).2 = .success ∧
    (issuePenalty 1 0 5 [7, 8] .atNotifications
      { ledger := initLedger, notifications := [] }).1.ledger.targets.length = 2 ∧
    (issuePenalty 1 0 5 [7, 8] .atNotifications
      { ledger := initLedger, notifications := [] }).1.notifications.length = 0 :=
  ⟨rfl, rfl, rfl, rfl, rfl, rfl, rfl⟩

/-- C9: with an empty target list the guard refuses before any storage
call: the state comes back untouched — no record, target or
notification row is created — whatever the injected failure point. -/
theorem empty_targets_rejected_before_write (teacher recId : Nat) (points : Int)
    (fp : FailPoint) (st : AppState) :
    issuePenalty teacher recId points [] fp st = (st, .emptyTargets) :=
  rfl

end StudentApp
